import Mathlib

/-!
Shallow embedding of `src/main.py` (address_to_legislative_districts).

The rate limiter works on Python floats; we embed the arithmetic over `ℚ`
(exact field arithmetic), which captures the control flow and the clamping
exactly.  Side effects with no bearing on state (`print`, `time.sleep`) are
dropped; `sleep` does not change any field of the limiter.
-/

/-- Python's built-in `min` on two rationals (computable, kernel-reducible). -/
def pymin (a b : ℚ) : ℚ := if a ≤ b then a else b

/-- Python's built-in `max` on two rationals (computable, kernel-reducible). -/
def pymax (a b : ℚ) : ℚ := if b ≤ a then a else b

theorem pymin_eq_min (a b : ℚ) : pymin a b = min a b := by
  unfold pymin
  rcases le_total a b with h | h
  · rw [if_pos h, min_eq_left h]
  · rcases eq_or_lt_of_le h with rfl | hlt
    · simp
    · rw [if_neg (not_le_of_lt hlt), min_eq_right h]

theorem pymax_eq_max (a b : ℚ) : pymax a b = max a b := by
  unfold pymax
  rcases le_total b a with h | h
  · rw [if_pos h, max_eq_left h]
  · rcases eq_or_lt_of_le h with rfl | hlt
    · simp
    · rw [if_neg (not_le_of_lt hlt), max_eq_right h]

/-- State of `AdaptiveRateLimiter` (src/main.py, lines 33-39).
`__init__(initial_delay=1.0, initial_alpha=2, max_delay=30.0, min_delay=0.1)`
stores the four configuration values plus `update_count = 0`. -/
structure AdaptiveRateLimiter where
  delay : ℚ
  initial_alpha : ℚ
  update_count : ℕ
  max_delay : ℚ
  min_delay : ℚ
  deriving Repr, DecidableEq

namespace AdaptiveRateLimiter

/-- Model of `AdaptiveRateLimiter.__init__` with explicit arguments (defaults:
`initial_delay=1.0, initial_alpha=2, max_delay=30.0, min_delay=0.1`). -/
def init (initial_delay initial_alpha max_delay min_delay : ℚ) : AdaptiveRateLimiter :=
  { delay := initial_delay
    initial_alpha := initial_alpha
    update_count := 0
    max_delay := max_delay
    min_delay := min_delay }

/-- The limiter constructed with all-default arguments, as in `process_csv`. -/
def initDefault : AdaptiveRateLimiter :=
  init 1 2 30 (1/10)

/-- Model of `_compute_alpha`: `initial_alpha / (1 + update_count)` (lines 41-42). -/
def compute_alpha (s : AdaptiveRateLimiter) : ℚ :=
  s.initial_alpha / (1 + (s.update_count : ℚ))

/-- Model of `_apply_ema(new_target)` (lines 44-53): increments `update_count` FIRST,
then computes `alpha` from the incremented count, then clamps the blend
`alpha * new_target + (1 - alpha) * delay` to `[min_delay, max_delay]`. -/
def apply_ema (s : AdaptiveRateLimiter) (new_target : ℚ) : AdaptiveRateLimiter :=
  let s1 : AdaptiveRateLimiter := { s with update_count := s.update_count + 1 }
  let alpha : ℚ := compute_alpha s1
  { s1 with
    delay := pymax s.min_delay (pymin s.max_delay (alpha * new_target + (1 - alpha) * s1.delay)) }

/-- Model of `on_success` (lines 55-57): target is `delay * 0.9`, then `_apply_ema`. -/
def on_success (s : AdaptiveRateLimiter) : AdaptiveRateLimiter :=
  apply_ema s (s.delay * (9/10))

/-- Model of `on_rate_limit` (lines 59-63): target is `delay * 2.0`, then `_apply_ema`,
then a print and a sleep, neither of which changes the state. -/
def on_rate_limit (s : AdaptiveRateLimiter) : AdaptiveRateLimiter :=
  apply_ema s (s.delay * 2)

/-- A request outcome fed to the limiter, for quantifying over call sequences. -/
inductive Op where
  | success
  | rateLimit
  deriving Repr, DecidableEq

/-- Apply one `on_success`/`on_rate_limit` call. -/
def applyOp (s : AdaptiveRateLimiter) : Op → AdaptiveRateLimiter
  | .success => s.on_success
  | .rateLimit => s.on_rate_limit

/-- Apply a sequence of `on_success`/`on_rate_limit` calls, oldest first. -/
def runOps (s : AdaptiveRateLimiter) (ops : List Op) : AdaptiveRateLimiter :=
  ops.foldl applyOp s

end AdaptiveRateLimiter

/-- Result of one invocation of `make_request_fn(params)`: a value, an
`HTTPError` carrying a status code, or any other exception (tagged). -/
inductive CallResult (α : Type) where
  | ok (v : α)
  | httpError (status : ℕ)
  | otherError (tag : ℕ)
  deriving Repr, DecidableEq

/-- What `request` ultimately does: return a value or let an exception
propagate. -/
inductive ReqOutcome (α : Type) where
  | returned (v : α)
  | raisedHttp (status : ℕ)
  | raisedOther (tag : ℕ)
  deriving Repr, DecidableEq

/-- Pass a call's result through unchanged: a value is returned, an exception
propagates — no try/except classification. -/
def directOutcome {α : Type} : CallResult α → ReqOutcome α
  | .ok v => .returned v
  | .httpError c => .raisedHttp c
  | .otherError t => .raisedOther t

/-- Observable trace of `AdaptiveRateLimiter.request`: final outcome, final
limiter state, how many times `make_request_fn` was invoked, and how many
times `on_success` / `on_rate_limit` were called. -/
structure ReqTrace (α : Type) where
  outcome : ReqOutcome α
  state : AdaptiveRateLimiter
  calls : ℕ
  successes : ℕ
  rateLimits : ℕ
  deriving Repr, DecidableEq

/-- Model of `TOO_MANY_REQUESTS_STATUS_CODE` (src/main.py, line 19). -/
def TOO_MANY_REQUESTS_STATUS_CODE : ℕ := 429

namespace AdaptiveRateLimiter

/-- The retry loop of `request` (src/main.py, lines 68-79).  `f i` is the
result of the `i`-th invocation of `make_request_fn` (counting from program
start at `start`); the second `ℕ` argument is the number of loop iterations
remaining.  With `0` iterations left the loop has been exhausted and line 79
makes one final call outside the try/except: its result or exception passes
through `directOutcome` with no classification.  Inside the loop, a success
triggers `on_success` and returns; an `HTTPError` with status 429 triggers
`on_rate_limit` and continues; any other exception propagates unchanged. -/
def requestAux {α : Type} (f : ℕ → CallResult α) (start : ℕ)
    (s : AdaptiveRateLimiter) : ℕ → ReqTrace α
  | 0 => { outcome := directOutcome (f start), state := s,
           calls := 1, successes := 0, rateLimits := 0 }
  | n + 1 =>
    match f start with
    | .ok v => { outcome := .returned v, state := s.on_success,
                 calls := 1, successes := 1, rateLimits := 0 }
    | .httpError c =>
      if c = TOO_MANY_REQUESTS_STATUS_CODE then
        let t := requestAux f (start + 1) s.on_rate_limit n
        { t with calls := t.calls + 1, rateLimits := t.rateLimits + 1 }
      else { outcome := .raisedHttp c, state := s,
             calls := 1, successes := 0, rateLimits := 0 }
    | .otherError tag => { outcome := .raisedOther tag, state := s,
                           calls := 1, successes := 0, rateLimits := 0 }

/-- Model of `request(make_request_fn, params, max_attempts)` (default
`max_attempts = 5`): run the guarded loop `max_attempts` times starting from
invocation `0`, then the final unguarded call. -/
def request {α : Type} (s : AdaptiveRateLimiter) (f : ℕ → CallResult α)
    (max_attempts : ℕ) : ReqTrace α :=
  requestAux f 0 s max_attempts

/-- A call result that the `except HTTPError` handler does not classify as
rate-limit: a non-429 `HTTPError` (re-raised by the `else: raise`) or any
non-`HTTPError` exception (never caught). -/
def nonRateLimitFailure {α : Type} : CallResult α → Prop
  | .ok _ => False
  | .httpError c => c ≠ TOO_MANY_REQUESTS_STATUS_CODE
  | .otherError _ => True

end AdaptiveRateLimiter

/-- Whether `hay` begins with `needle` (character lists). -/
def startsWithL : List Char → List Char → Bool
  | [], _ => true
  | _ :: _, [] => false
  | a :: as, b :: bs => a = b && startsWithL as bs

/-- Whether `needle` occurs as a contiguous substring of
`hay` (character lists). -/
def containsL (needle : List Char) : List Char → Bool
  | [] => needle.isEmpty
  | c :: cs => startsWithL needle (c :: cs) || containsL needle cs

/-- Python's `needle in hay` on strings: substring containment. -/
def strIn (needle hay : String) : Bool :=
  containsL needle.data hay.data

/-- Longest run of leading decimal digits of a character list. -/
def takeDigitRun : List Char → List Char
  | [] => []
  | c :: cs => if c.isDigit then c :: takeDigitRun cs else []

/-- First maximal run of decimal digits in a character list, if any. -/
def findDigitRun : List Char → Option (List Char)
  | [] => none
  | c :: cs => if c.isDigit then some (c :: takeDigitRun cs) else findDigitRun cs

/-- Model of `re.search(r'\d+', s)`: the first maximal decimal-digit substring of `s`,
or `None` when `s` has no digit. -/
def firstDigitRun (s : String) : Option String :=
  (findDigitRun s.data).map List.asString

/-- Model of `int` on a string of decimal digits. -/
def digitsVal (l : List Char) : ℕ :=
  l.foldl (fun n c => 10 * n + (c.toNat - 48)) 0

/-- Model of `STATE_HOUSE_ID` (src/main.py, line 15). -/
def STATE_HOUSE_ID : String := "sldl"

/-- Model of `STATE_SENATE_ID` (src/main.py, line 16). -/
def STATE_SENATE_ID : String := "sldu"

/-- Model of `US_HOUSE_ID` (src/main.py, line 17). -/
def US_HOUSE_ID : String := "cd:"

/-- The Python exceptions that `extract_district_and_rep` can raise:
`AttributeError` from `re.search(...).group(0)` when the search returned
`None`; `IndexError`/`KeyError` from subscript lookups; `TypeError` from
`official_info.get('party')[0]` when `get` returned `None`. -/
inductive ExtractErr where
  | attrError
  | indexError
  | typeError
  deriving Repr, DecidableEq

/-- Model of `DistrictAndRep` pydantic model (src/main.py, lines 82-85). -/
structure DistrictAndRep where
  district_number : Option ℕ
  representative_name : Option String
  party : Option String
  deriving Repr, DecidableEq

/-- Model of `RowItem` pydantic model (src/main.py, lines 87-90). -/
structure RowItem where
  state_house : Option DistrictAndRep
  state_senate : Option DistrictAndRep
  us_house : Option DistrictAndRep
  deriving Repr, DecidableEq

/-- A division's info dict, with the fields the code reads:
`info['name']` and `info['officeIndices']`. -/
structure DivisionInfo where
  name : String
  officeIndices : List ℕ
  deriving Repr, DecidableEq

/-- An entry of `data['offices']`, with the field the code reads. -/
structure Office where
  officialIndices : List ℕ
  deriving Repr, DecidableEq

/-- An entry of `data['officials']`; `party` is read with `.get('party')`,
so its absence yields `None` rather than an exception. -/
structure Official where
  name : String
  party : Option String
  deriving Repr, DecidableEq

/-- The JSON body the lookup returns, with the parts the code reads:
`divisions` (insertion-ordered mapping id → info), `offices`, `officials`. -/
structure CivicData where
  divisions : List (String × DivisionInfo)
  offices : List Office
  officials : List Official
  deriving Repr, DecidableEq

/-- Model of `extract_district_and_rep(data, info)` (src/main.py, lines 92-104),
with each partial dereference made explicit as an `ExtractErr`:
`re.search(r'\d+', district_name).group(0)` raises `AttributeError` when the
name has no digits; the list subscripts raise `IndexError` when out of range;
`official_info.get('party')[0]` raises `TypeError` when `party` is absent and
`IndexError` when it is the empty string. -/
def extract_district_and_rep (data : CivicData) (info : DivisionInfo) :
    Except ExtractErr DistrictAndRep :=
  match firstDigitRun info.name with
  | none => .error .attrError
  | some district_number =>
    match info.officeIndices[0]? with
    | none => .error .indexError
    | some office_index =>
      match data.offices[office_index]? with
      | none => .error .indexError
      | some office =>
        match office.officialIndices[0]? with
        | none => .error .indexError
        | some official_index =>
          match data.officials[official_index]? with
          | none => .error .indexError
          | some official_info =>
            match official_info.party with
            | none => .error .typeError
            | some party_str =>
              match party_str.data[0]? with
              | none => .error .indexError
              | some party =>
                .ok { district_number := some (digitsVal district_number.data)
                      representative_name := some official_info.name
                      party := some (String.mk [party]) }

/-- One iteration of the `for division_id, info in divisions.items()` loop of
`get_legislative_districts` (src/main.py, lines 165-171): three independent
substring tests, each overwriting the corresponding `RowItem` field with a
fresh extraction (which may raise). -/
def divisionStep (data : CivicData) (item : RowItem)
    (entry : String × DivisionInfo) : Except ExtractErr RowItem := do
  let item ←
    if strIn STATE_HOUSE_ID entry.1 then do
      let d ← extract_district_and_rep data entry.2
      pure { item with state_house := some d }
    else pure item
  let item ←
    if strIn STATE_SENATE_ID entry.1 then do
      let d ← extract_district_and_rep data entry.2
      pure { item with state_senate := some d }
    else pure item
  if strIn US_HOUSE_ID entry.1 then do
    let d ← extract_district_and_rep data entry.2
    pure { item with us_house := some d }
  else pure item

/-- The parsing part of `get_legislative_districts` (src/main.py,
lines 162-173), applied to a lookup response that has already been obtained:
fold the division loop over an initially empty `RowItem`.  (The network and
rate-limiter part of the function is the `request` model above.) -/
def parseDistricts (data : CivicData) : Except ExtractErr RowItem :=
  data.divisions.foldlM (divisionStep data)
    { state_house := none, state_senate := none, us_house := none }

/-- Python `str(x)` for an optional string, as an f-string renders it:
`None` prints as `"None"`. -/
def optStr : Option String → String
  | none => "None"
  | some s => s

/-- Python `str(x)` for an optional integer, as an f-string renders it. -/
def optNatStr : Option ℕ → String
  | none => "None"
  | some n => toString n

/-- Model of `district_name(district, term)` (src/main.py, lines 106-107). -/
def district_name (district : DistrictAndRep) (term : String) : String :=
  optStr district.party ++ " " ++ term ++ " District " ++
    optNatStr district.district_number

/-- A row of the table: the `address` column plus the six output columns.
`none` models a pandas NA cell (which is what `pd.read_csv` yields for an
empty cell, and what `pd.NA`/`None` assignment stores). -/
structure Row where
  address : String
  stateHouseDistrict : Option String
  stateHouseRep : Option String
  stateSenateDistrict : Option String
  stateSenateRep : Option String
  usHouseDistrict : Option String
  usHouseRep : Option String
  deriving Repr, DecidableEq

/-- The in-memory DataFrame: its rows, plus whether the column
`"State House Rep."` is present in `df.columns`. -/
structure Df where
  hasSentinelCol : Bool
  rows : List Row
  deriving Repr, DecidableEq

/-- The cell writes of `process_row` (src/main.py, lines 118-126): for each
jurisdiction present in the `RowItem`, write the district display string and
the representative name into the row.  `representative_name` is itself
optional in the pydantic model; assigning `None` into a cell stores NA, which
the direct `Option` assignment models. -/
def applyItem (row : Row) (districts : RowItem) : Row :=
  let row :=
    match districts.state_house with
    | none => row
    | some d => { row with
        stateHouseDistrict := some (district_name d "House")
        stateHouseRep := d.representative_name }
  let row :=
    match districts.state_senate with
    | none => row
    | some d => { row with
        stateSenateDistrict := some (district_name d "Senate")
        stateSenateRep := d.representative_name }
  match districts.us_house with
  | none => row
  | some d => { row with
      usHouseDistrict := some (district_name d "US House")
      usHouseRep := d.representative_name }

/-- Model of `process_row(df, idx, rate_limiter)` (src/main.py, lines 114-126).
`lookup` models `get_legislative_districts(address, rate_limiter)`: it either
returns a `RowItem` or raises (error tag `ℕ`).  The cell writes happen only
after the lookup has returned; an exception therefore leaves the table
untouched.  An out-of-range `idx` models the `iloc` `IndexError`. -/
def process_row (lookup : String → Except ℕ RowItem) (df : Df) (idx : ℕ) :
    Except ℕ Df :=
  match df.rows[idx]? with
  | none => .error 0
  | some row =>
    match lookup row.address with
    | .error e => .error e
    | .ok districts => .ok { df with rows := df.rows.set idx (applyItem row districts) }

/-- Lines 133-135 of `process_csv`: if `"State House Rep."` is not among the
columns, add it with every cell `pd.NA`. -/
def addSentinelCol (df : Df) : Df :=
  if df.hasSentinelCol then df
  else { hasSentinelCol := true
         rows := df.rows.map (fun r => { r with stateHouseRep := none }) }

/-- Line 136 plus line 141: `mask = df["State House Rep."].isna()` and
`df[mask].index` — the indices, in original order, of the rows whose
sentinel cell is NA. -/
def pendingIdxs (df : Df) : List ℕ :=
  (List.range df.rows.length).filter
    (fun i =>
      match df.rows[i]? with
      | some r => r.stateHouseRep.isNone
      | none => false)

/-- Result of a `process_csv` run: the final in-memory table, every table
state passed to `df.to_csv` (in order), the exception that propagated out
(if any), and the indices of the rows whose `process_row` completed. -/
structure BatchResult where
  df : Df
  written : List Df
  err : Option ℕ
  processed : List ℕ
  deriving Repr, DecidableEq

/-- The `for idx in tqdm(df[mask].index)` loop (src/main.py, lines 141-145):
before each row the cooperative stop flag is read (`stop k` is its value
before the `k`-th pending row); a set flag breaks out; then `process_row`
runs, an exception from it aborting the loop; `rate_limiter.sleep()` does
not change the table.  Returns the table, the escaping exception (if any)
and the completed indices. -/
def runPending (lookup : String → Except ℕ RowItem) (stop : ℕ → Bool) :
    Df → List ℕ → ℕ → Df × Option ℕ × List ℕ
  | df, [], _ => (df, none, [])
  | df, idx :: rest, k =>
    if stop k then (df, none, [])
    else
      match process_row lookup df idx with
      | .error e => (df, some e, [])
      | .ok df' =>
        let r := runPending lookup stop df' rest (k + 1)
        (r.1, r.2.1, idx :: r.2.2)

/-- Model of `process_csv(file_path)` (src/main.py, lines 129-151): read the table,
add the sentinel column if missing, compute the pending mask once, run the
loop; on an exception write the table once and re-raise it, otherwise write
the table once at the end.  Either way exactly one `df.to_csv` call is made,
with the in-memory table of that moment. -/
def process_csv (lookup : String → Except ℕ RowItem) (stop : ℕ → Bool)
    (df0 : Df) : BatchResult :=
  let df1 := addSentinelCol df0
  let r := runPending lookup stop df1 (pendingIdxs df1) 0
  { df := r.1, written := [r.1], err := r.2.1, processed := r.2.2 }

/-- The scenario claim C10 asserts to exist: a run that ends in an exception,
where some row that was pending (sentinel NA) at the start of the run and
was not completed by the run nevertheless has a non-empty sentinel cell in
the persisted table. -/
def PartialRowPersisted : Prop :=
  ∃ (lookup : String → Except ℕ RowItem) (stop : ℕ → Bool) (df0 : Df)
    (i e : ℕ) (row row' : Row),
    (process_csv lookup stop df0).err = some e ∧
    (addSentinelCol df0).rows[i]? = some row ∧
    row.stateHouseRep = none ∧
    i ∉ (process_csv lookup stop df0).processed ∧
    (process_csv lookup stop df0).df.rows[i]? = some row' ∧
    row'.stateHouseRep ≠ none

/-- Modelled from the spec's words for the EMA blend rule (claim C2):
`alpha = initial_alpha / (1 + update_count)` with `update_count` read BEFORE
any increment, and
`delay = clamp(alpha × target + (1 − alpha) × delay, min_delay, max_delay)`.
This is the comparison definition for the refinement check; the code's own
rule is `AdaptiveRateLimiter.apply_ema`. -/
def claimedEmaDelay (s : AdaptiveRateLimiter) (target : ℚ) : ℚ :=
  let alpha : ℚ := s.initial_alpha / (1 + (s.update_count : ℚ))
  pymax s.min_delay (pymin s.max_delay (alpha * target + (1 - alpha) * s.delay))

/-- Concrete lookup answer used in witnesses: a state-house district only. -/
def sampleItem : RowItem :=
  { state_house := some { district_number := some 7
                          representative_name := some "Jane Doe"
                          party := some "D" }
    state_senate := none
    us_house := none }

/-- A row already marked done (non-empty sentinel cell). -/
def sampleRowDone : Row :=
  { address := "addr0"
    stateHouseDistrict := some "D House District 3"
    stateHouseRep := some "Old Rep"
    stateSenateDistrict := none
    stateSenateRep := none
    usHouseDistrict := none
    usHouseRep := none }

/-- A pending row with address `"a"`. -/
def sampleRowA : Row :=
  { address := "a", stateHouseDistrict := none, stateHouseRep := none
    stateSenateDistrict := none, stateSenateRep := none
    usHouseDistrict := none, usHouseRep := none }

/-- A pending row with address `"b"`. -/
def sampleRowB : Row :=
  { address := "b", stateHouseDistrict := none, stateHouseRep := none
    stateSenateDistrict := none, stateSenateRep := none
    usHouseDistrict := none, usHouseRep := none }

/-- A three-row table: one done row and two pending rows. -/
def sampleDf : Df :=
  { hasSentinelCol := true, rows := [sampleRowDone, sampleRowA, sampleRowB] }

/-- A lookup that succeeds on address `"a"` and raises (tag 5) on any other
address. -/
def sampleLookup : String → Except ℕ RowItem :=
  fun addr => if addr = "a" then .ok sampleItem else .error 5

/-- A stop flag that is never set. -/
def neverStop : ℕ → Bool := fun _ => false

namespace AdaptiveRateLimiter

theorem apply_ema_min_delay (s : AdaptiveRateLimiter) (t : ℚ) :
    (s.apply_ema t).min_delay = s.min_delay := rfl

theorem apply_ema_max_delay (s : AdaptiveRateLimiter) (t : ℚ) :
    (s.apply_ema t).max_delay = s.max_delay := rfl

theorem apply_ema_initial_alpha (s : AdaptiveRateLimiter) (t : ℚ) :
    (s.apply_ema t).initial_alpha = s.initial_alpha := rfl

theorem apply_ema_update_count (s : AdaptiveRateLimiter) (t : ℚ) :
    (s.apply_ema t).update_count = s.update_count + 1 := rfl

theorem apply_ema_delay_le (s : AdaptiveRateLimiter) (t : ℚ)
    (h : s.min_delay ≤ s.max_delay) :
    s.min_delay ≤ (s.apply_ema t).delay ∧ (s.apply_ema t).delay ≤ s.max_delay := by
  show s.min_delay ≤ pymax s.min_delay (pymin s.max_delay _) ∧
    pymax s.min_delay (pymin s.max_delay _) ≤ s.max_delay
  rw [pymax_eq_max, pymin_eq_min]
  exact ⟨le_max_left _ _, max_le h (min_le_left _ _)⟩

theorem applyOp_min_delay (s : AdaptiveRateLimiter) (op : Op) :
    (s.applyOp op).min_delay = s.min_delay := by cases op <;> rfl

theorem applyOp_max_delay (s : AdaptiveRateLimiter) (op : Op) :
    (s.applyOp op).max_delay = s.max_delay := by cases op <;> rfl

theorem applyOp_initial_alpha (s : AdaptiveRateLimiter) (op : Op) :
    (s.applyOp op).initial_alpha = s.initial_alpha := by cases op <;> rfl

theorem applyOp_delay_le (s : AdaptiveRateLimiter) (op : Op)
    (h : s.min_delay ≤ s.max_delay) :
    s.min_delay ≤ (s.applyOp op).delay ∧ (s.applyOp op).delay ≤ s.max_delay := by
  cases op <;> exact apply_ema_delay_le _ _ h

theorem runOps_config (s : AdaptiveRateLimiter) (ops : List Op) :
    (s.runOps ops).min_delay = s.min_delay ∧
    (s.runOps ops).max_delay = s.max_delay ∧
    (s.runOps ops).initial_alpha = s.initial_alpha := by
  induction ops generalizing s with
  | nil => exact ⟨rfl, rfl, rfl⟩
  | cons op rest ih =>
    have h := ih (s.applyOp op)
    simpa [runOps, List.foldl_cons, applyOp_min_delay, applyOp_max_delay,
      applyOp_initial_alpha] using h

theorem runOps_delay_le (s : AdaptiveRateLimiter) (ops : List Op)
    (hlo : s.min_delay ≤ s.delay) (hhi : s.delay ≤ s.max_delay) :
    s.min_delay ≤ (s.runOps ops).delay ∧ (s.runOps ops).delay ≤ s.max_delay := by
  induction ops generalizing s with
  | nil => exact ⟨hlo, hhi⟩
  | cons op rest ih =>
    have hmm : s.min_delay ≤ s.max_delay := hlo.trans hhi
    have hstep := applyOp_delay_le s op hmm
    have h := ih (s.applyOp op)
      (by rw [applyOp_min_delay]; exact hstep.1)
      (by rw [applyOp_max_delay]; exact hstep.2)
    rw [applyOp_min_delay, applyOp_max_delay] at h
    simpa [runOps, List.foldl_cons] using h

end AdaptiveRateLimiter

/-- C1: for every limiter configuration with
`min_delay ≤ initial_delay ≤ max_delay` and every sequence of
`on_success`/`on_rate_limit` calls, the `delay` field stays in the closed
interval `[min_delay, max_delay]` after every call. -/
theorem c1_delay_stays_in_bounds
    (initial_delay initial_alpha max_delay min_delay : ℚ)
    (hlo : min_delay ≤ initial_delay) (hhi : initial_delay ≤ max_delay)
    (ops : List AdaptiveRateLimiter.Op) :
    min_delay ≤
      ((AdaptiveRateLimiter.init initial_delay initial_alpha max_delay
        min_delay).runOps ops).delay ∧
    ((AdaptiveRateLimiter.init initial_delay initial_alpha max_delay
        min_delay).runOps ops).delay ≤ max_delay :=
  AdaptiveRateLimiter.runOps_delay_le _ ops hlo hhi

/-- Witness for C1 at the default configuration and a concrete call
sequence. -/
theorem c1_delay_stays_in_bounds_witness :
    ((1:ℚ)/10 ≤ 1) ∧ ((1:ℚ) ≤ 30) ∧
    ((1:ℚ)/10 ≤
      ((AdaptiveRateLimiter.init 1 2 30 (1/10)).runOps
        [.rateLimit, .success, .success]).delay ∧
    ((AdaptiveRateLimiter.init 1 2 30 (1/10)).runOps
        [.rateLimit, .success, .success]).delay ≤ 30) :=
  ⟨by norm_num, by norm_num,
    c1_delay_stays_in_bounds 1 2 30 (1/10) (by norm_num) (by norm_num) _⟩

namespace AdaptiveRateLimiter

theorem on_success_delay_step (s : AdaptiveRateLimiter)
    (ha : 0 < s.initial_alpha) (h0 : 0 ≤ s.min_delay)
    (hlo : s.min_delay ≤ s.delay) (hhi : s.delay ≤ s.max_delay) :
    (s.on_success).delay ≤ s.delay ∧
    (s.min_delay < s.delay → (s.on_success).delay < s.delay) ∧
    (s.delay = s.min_delay → (s.on_success).delay = s.min_delay) := by
  have hden : (0:ℚ) < 1 + ((s.update_count + 1 : ℕ) : ℚ) := by positivity
  set α := s.initial_alpha / (1 + ((s.update_count + 1 : ℕ) : ℚ)) with hα
  have hαpos : 0 < α := div_pos ha hden
  have hdelay : (s.on_success).delay =
      pymax s.min_delay
        (pymin s.max_delay (α * (s.delay * (9/10)) + (1 - α) * s.delay)) := rfl
  have hx : α * (s.delay * (9/10)) + (1 - α) * s.delay =
      s.delay - α * s.delay / 10 := by ring
  rw [hdelay, pymax_eq_max, pymin_eq_min, hx]
  rcases lt_or_eq_of_le hlo with hlt | heq
  · have hdpos : 0 < s.delay := lt_of_le_of_lt h0 hlt
    have hsub : 0 < α * s.delay / 10 :=
      div_pos (mul_pos hαpos hdpos) (by norm_num)
    have hxlt : s.delay - α * s.delay / 10 < s.delay := by linarith
    have hnew : max s.min_delay
        (min s.max_delay (s.delay - α * s.delay / 10)) < s.delay :=
      max_lt hlt (lt_of_le_of_lt (min_le_right _ _) hxlt)
    exact ⟨le_of_lt hnew, fun _ => hnew, fun h => absurd h (ne_of_gt hlt)⟩
  · have hd0 : 0 ≤ s.delay := heq ▸ h0
    have hsub : 0 ≤ α * s.delay / 10 :=
      div_nonneg (mul_nonneg hαpos.le hd0) (by norm_num)
    have hxle : s.delay - α * s.delay / 10 ≤ s.delay := by linarith
    have hminle : min s.max_delay (s.delay - α * s.delay / 10) ≤ s.min_delay := by
      rw [heq]
      exact (min_le_right _ _).trans hxle
    have hnew : max s.min_delay
        (min s.max_delay (s.delay - α * s.delay / 10)) = s.min_delay :=
      max_eq_left hminle
    exact ⟨le_of_eq (hnew.trans heq), fun hlt => absurd heq (ne_of_lt hlt),
      fun _ => hnew⟩

theorem on_success_iter_config (s : AdaptiveRateLimiter) (n : ℕ) :
    (on_success^[n] s).min_delay = s.min_delay ∧
    (on_success^[n] s).max_delay = s.max_delay ∧
    (on_success^[n] s).initial_alpha = s.initial_alpha := by
  induction n with
  | zero => exact ⟨rfl, rfl, rfl⟩
  | succ n ih =>
    rw [Function.iterate_succ_apply']
    have h1 : (on_success (on_success^[n] s)).min_delay =
        (on_success^[n] s).min_delay := rfl
    have h2 : (on_success (on_success^[n] s)).max_delay =
        (on_success^[n] s).max_delay := rfl
    have h3 : (on_success (on_success^[n] s)).initial_alpha =
        (on_success^[n] s).initial_alpha := rfl
    exact ⟨h1.trans ih.1, h2.trans ih.2.1, h3.trans ih.2.2⟩

theorem on_success_iter_bounds (s : AdaptiveRateLimiter)
    (hlo : s.min_delay ≤ s.delay) (hhi : s.delay ≤ s.max_delay) (n : ℕ) :
    s.min_delay ≤ (on_success^[n] s).delay ∧
    (on_success^[n] s).delay ≤ s.max_delay := by
  induction n with
  | zero => exact ⟨hlo, hhi⟩
  | succ n ih =>
    rw [Function.iterate_succ_apply']
    have hcfg := on_success_iter_config s n
    have hmm : (on_success^[n] s).min_delay ≤ (on_success^[n] s).max_delay := by
      rw [hcfg.1, hcfg.2.1]
      exact hlo.trans hhi
    have hstep := apply_ema_delay_le (on_success^[n] s)
      ((on_success^[n] s).delay * (9/10)) hmm
    rw [hcfg.1, hcfg.2.1] at hstep
    exact ⟨hstep.1, hstep.2⟩

end AdaptiveRateLimiter

/-- C6: starting from a well-formed configuration (positive `initial_alpha`,
`0 ≤ min_delay ≤ initial_delay ≤ max_delay`, as in the defaults), the
sequence of `delay` values under repeated `on_success` calls is
non-increasing at every step, strictly decreasing whenever `delay` is still
above `min_delay`, and constant once `delay` has reached `min_delay`. -/
theorem c6_on_success_monotone (s : AdaptiveRateLimiter)
    (ha : 0 < s.initial_alpha) (h0 : 0 ≤ s.min_delay)
    (hlo : s.min_delay ≤ s.delay) (hhi : s.delay ≤ s.max_delay) (n : ℕ) :
    (AdaptiveRateLimiter.on_success^[n + 1] s).delay ≤
      (AdaptiveRateLimiter.on_success^[n] s).delay ∧
    (s.min_delay < (AdaptiveRateLimiter.on_success^[n] s).delay →
      (AdaptiveRateLimiter.on_success^[n + 1] s).delay <
        (AdaptiveRateLimiter.on_success^[n] s).delay) ∧
    ((AdaptiveRateLimiter.on_success^[n] s).delay = s.min_delay →
      (AdaptiveRateLimiter.on_success^[n + 1] s).delay = s.min_delay) := by
  have hcfg := AdaptiveRateLimiter.on_success_iter_config s n
  have hbds := AdaptiveRateLimiter.on_success_iter_bounds s hlo hhi n
  have hstep := AdaptiveRateLimiter.on_success_delay_step
    (AdaptiveRateLimiter.on_success^[n] s)
    (by rw [hcfg.2.2]; exact ha) (by rw [hcfg.1]; exact h0)
    (by rw [hcfg.1]; exact hbds.1) (by rw [hcfg.2.1]; exact hbds.2)
  rw [hcfg.1] at hstep
  rw [Function.iterate_succ_apply']
  exact hstep

/-- Witness for C6 at the default configuration, after zero prior calls. -/
theorem c6_on_success_monotone_witness :
    ((0:ℚ) < AdaptiveRateLimiter.initDefault.initial_alpha) ∧
    ((0:ℚ) ≤ AdaptiveRateLimiter.initDefault.min_delay) ∧
    (AdaptiveRateLimiter.initDefault.min_delay ≤
      AdaptiveRateLimiter.initDefault.delay) ∧
    (AdaptiveRateLimiter.initDefault.delay ≤
      AdaptiveRateLimiter.initDefault.max_delay) ∧
    ((AdaptiveRateLimiter.on_success^[1] AdaptiveRateLimiter.initDefault).delay ≤
      (AdaptiveRateLimiter.on_success^[0] AdaptiveRateLimiter.initDefault).delay ∧
    (AdaptiveRateLimiter.initDefault.min_delay <
        (AdaptiveRateLimiter.on_success^[0] AdaptiveRateLimiter.initDefault).delay →
      (AdaptiveRateLimiter.on_success^[1] AdaptiveRateLimiter.initDefault).delay <
        (AdaptiveRateLimiter.on_success^[0] AdaptiveRateLimiter.initDefault).delay) ∧
    ((AdaptiveRateLimiter.on_success^[0] AdaptiveRateLimiter.initDefault).delay =
        AdaptiveRateLimiter.initDefault.min_delay →
      (AdaptiveRateLimiter.on_success^[1] AdaptiveRateLimiter.initDefault).delay =
        AdaptiveRateLimiter.initDefault.min_delay)) :=
  ⟨by norm_num [AdaptiveRateLimiter.initDefault, AdaptiveRateLimiter.init],
    by norm_num [AdaptiveRateLimiter.initDefault, AdaptiveRateLimiter.init],
    by norm_num [AdaptiveRateLimiter.initDefault, AdaptiveRateLimiter.init],
    by norm_num [AdaptiveRateLimiter.initDefault, AdaptiveRateLimiter.init],
    c6_on_success_monotone AdaptiveRateLimiter.initDefault
      (by norm_num [AdaptiveRateLimiter.initDefault, AdaptiveRateLimiter.init])
      (by norm_num [AdaptiveRateLimiter.initDefault, AdaptiveRateLimiter.init])
      (by norm_num [AdaptiveRateLimiter.initDefault, AdaptiveRateLimiter.init])
      (by norm_num [AdaptiveRateLimiter.initDefault, AdaptiveRateLimiter.init]) 0⟩

namespace AdaptiveRateLimiter

theorem requestAux_rate_limited_run {α : Type} (f : ℕ → CallResult α) (m : ℕ) :
    ∀ (start : ℕ) (s : AdaptiveRateLimiter),
      (∀ i, i < m → f (start + i) = CallResult.httpError 429) →
      requestAux f start s m =
        { outcome := directOutcome (f (start + m)),
          state := on_rate_limit^[m] s,
          calls := m + 1, successes := 0, rateLimits := m } := by
  induction m with
  | zero =>
    intro start s h
    simp [requestAux]
  | succ m ih =>
    intro start s h
    have h0 : f start = CallResult.httpError 429 := by
      simpa using h 0 (Nat.succ_pos m)
    have hrest : ∀ i, i < m → f (start + 1 + i) = CallResult.httpError 429 := by
      intro i hi
      have hx := h (i + 1) (by omega)
      have harg : start + (i + 1) = start + 1 + i := by omega
      rwa [harg] at hx
    have ihx := ih (start + 1) s.on_rate_limit hrest
    have harg : start + 1 + m = start + (m + 1) := by omega
    rw [harg] at ihx
    simp [requestAux, h0, TOO_MANY_REQUESTS_STATUS_CODE, ihx,
      Function.iterate_succ_apply]

theorem requestAux_success_run {α : Type} (f : ℕ → CallResult α) (k : ℕ) :
    ∀ (start : ℕ) (s : AdaptiveRateLimiter) (fuel : ℕ), k < fuel →
      (∀ i, i < k → f (start + i) = CallResult.httpError 429) →
      ∀ v : α, f (start + k) = CallResult.ok v →
      requestAux f start s fuel =
        { outcome := ReqOutcome.returned v,
          state := (on_rate_limit^[k] s).on_success,
          calls := k + 1, successes := 1, rateLimits := k } := by
  induction k with
  | zero =>
    intro start s fuel hfuel h429 v hok
    rw [Nat.add_zero] at hok
    match fuel, hfuel with
    | fuel + 1, _ => simp [requestAux, hok]
  | succ k ih =>
    intro start s fuel hfuel h429 v hok
    match fuel, hfuel with
    | fuel + 1, hfuel =>
      have h0 : f start = CallResult.httpError 429 := by
        simpa using h429 0 (Nat.succ_pos k)
      have hrest : ∀ i, i < k → f (start + 1 + i) = CallResult.httpError 429 := by
        intro i hi
        have hx := h429 (i + 1) (by omega)
        have harg : start + (i + 1) = start + 1 + i := by omega
        rwa [harg] at hx
      have hok' : f (start + 1 + k) = CallResult.ok v := by
        have harg : start + (k + 1) = start + 1 + k := by omega
        rwa [harg] at hok
      have ihx := ih (start + 1) s.on_rate_limit fuel (by omega) hrest v hok'
      simp [requestAux, h0, TOO_MANY_REQUESTS_STATUS_CODE, ihx,
        Function.iterate_succ_apply]

theorem requestAux_fatal_run {α : Type} (f : ℕ → CallResult α) (j : ℕ) :
    ∀ (start : ℕ) (s : AdaptiveRateLimiter) (fuel : ℕ), j ≤ fuel →
      (∀ i, i < j → f (start + i) = CallResult.httpError 429) →
      nonRateLimitFailure (f (start + j)) →
      requestAux f start s fuel =
        { outcome := directOutcome (f (start + j)),
          state := on_rate_limit^[j] s,
          calls := j + 1, successes := 0, rateLimits := j } := by
  induction j with
  | zero =>
    intro start s fuel _ _ hnr
    rw [Nat.add_zero] at hnr ⊢
    match fuel with
    | 0 => simp [requestAux]
    | fuel + 1 =>
      match hf : f start with
      | .ok v => rw [hf] at hnr; exact absurd hnr (by simp [nonRateLimitFailure])
      | .httpError c =>
        rw [hf] at hnr
        have hc : ¬ c = TOO_MANY_REQUESTS_STATUS_CODE := hnr
        simp [requestAux, hf, hc, directOutcome]
      | .otherError t => simp [requestAux, hf, directOutcome]
  | succ j ih =>
    intro start s fuel hfuel h429 hnr
    match fuel, hfuel with
    | fuel + 1, hfuel =>
      have h0 : f start = CallResult.httpError 429 := by
        simpa using h429 0 (Nat.succ_pos j)
      have hrest : ∀ i, i < j → f (start + 1 + i) = CallResult.httpError 429 := by
        intro i hi
        have hx := h429 (i + 1) (by omega)
        have harg : start + (i + 1) = start + 1 + i := by omega
        rwa [harg] at hx
      have hnr' : nonRateLimitFailure (f (start + 1 + j)) := by
        have harg : start + (j + 1) = start + 1 + j := by omega
        rwa [harg] at hnr
      have ihx := ih (start + 1) s.on_rate_limit fuel (by omega) hrest hnr'
      have harg : start + 1 + j = start + (j + 1) := by omega
      rw [harg] at ihx
      simp [requestAux, h0, TOO_MANY_REQUESTS_STATUS_CODE, ihx,
        Function.iterate_succ_apply]

end AdaptiveRateLimiter

/-- C3: when every invocation in the guarded loop is rate-limited (HTTP
429), `request` invokes the callable exactly `max_attempts` times in the
loop, calling `on_rate_limit` after each (and `on_success` never), and then
makes exactly one final unguarded invocation — call number
`max_attempts + 1` — whose result/exception passes through `directOutcome`
with no classification and no limiter update. -/
theorem c3_all_rate_limited {α : Type} (f : ℕ → CallResult α)
    (s : AdaptiveRateLimiter) (max_attempts : ℕ)
    (h : ∀ i, i < max_attempts → f i = CallResult.httpError 429) :
    s.request f max_attempts =
      { outcome := directOutcome (f max_attempts),
        state := AdaptiveRateLimiter.on_rate_limit^[max_attempts] s,
        calls := max_attempts + 1, successes := 0,
        rateLimits := max_attempts } := by
  have hx := AdaptiveRateLimiter.requestAux_rate_limited_run f max_attempts 0 s
    (by intro i hi; simpa using h i hi)
  simpa [AdaptiveRateLimiter.request] using hx

/-- Witness for C3: a callable that is rate-limited on every invocation,
with `max_attempts = 2`. -/
theorem c3_all_rate_limited_witness :
    (∀ i, i < 2 →
      (fun _ : ℕ => (CallResult.httpError 429 : CallResult ℕ)) i =
        CallResult.httpError 429) ∧
    AdaptiveRateLimiter.initDefault.request
        (fun _ : ℕ => (CallResult.httpError 429 : CallResult ℕ)) 2 =
      { outcome := directOutcome (CallResult.httpError 429),
        state := AdaptiveRateLimiter.on_rate_limit^[2]
          AdaptiveRateLimiter.initDefault,
        calls := 3, successes := 0, rateLimits := 2 } :=
  ⟨fun _ _ => rfl,
    c3_all_rate_limited (fun _ => CallResult.httpError 429)
      AdaptiveRateLimiter.initDefault 2 (fun _ _ => rfl)⟩

/-- C4: when the callable is rate-limited on exactly its first `k`
invocations (`k < max_attempts`) and succeeds on invocation `k + 1`,
`request` returns that success, having invoked the callable exactly `k + 1`
times, `on_rate_limit` exactly `k` times and `on_success` exactly once. -/
theorem c4_success_after_k {α : Type} (f : ℕ → CallResult α)
    (s : AdaptiveRateLimiter) (k max_attempts : ℕ) (v : α)
    (hk : k < max_attempts)
    (h429 : ∀ i, i < k → f i = CallResult.httpError 429)
    (hok : f k = CallResult.ok v) :
    s.request f max_attempts =
      { outcome := ReqOutcome.returned v,
        state := (AdaptiveRateLimiter.on_rate_limit^[k] s).on_success,
        calls := k + 1, successes := 1, rateLimits := k } := by
  have hx := AdaptiveRateLimiter.requestAux_success_run f k 0 s max_attempts hk
    (by intro i hi; simpa using h429 i hi) v (by simpa using hok)
  simpa [AdaptiveRateLimiter.request] using hx

/-- Witness for C4: one rate-limited invocation, then success, with
`max_attempts = 5`. -/
theorem c4_success_after_k_witness :
    (1 < 5) ∧
    (∀ i, i < 1 →
      (fun i : ℕ => if i = 0 then (CallResult.httpError 429 : CallResult ℕ)
        else CallResult.ok 7) i = CallResult.httpError 429) ∧
    ((fun i : ℕ => if i = 0 then (CallResult.httpError 429 : CallResult ℕ)
        else CallResult.ok 7) 1 = CallResult.ok 7) ∧
    AdaptiveRateLimiter.initDefault.request
        (fun i : ℕ => if i = 0 then (CallResult.httpError 429 : CallResult ℕ)
          else CallResult.ok 7) 5 =
      { outcome := ReqOutcome.returned 7,
        state := (AdaptiveRateLimiter.on_rate_limit^[1]
          AdaptiveRateLimiter.initDefault).on_success,
        calls := 2, successes := 1, rateLimits := 1 } :=
  ⟨by norm_num,
    by intro i hi; have hz : i = 0 := by omega
       subst hz; rfl,
    rfl,
    c4_success_after_k _ AdaptiveRateLimiter.initDefault 1 5 7 (by norm_num)
      (by intro i hi; have hz : i = 0 := by omega
          subst hz; rfl)
      rfl⟩

/-- C5: when the first non-success outcome that is not a rate-limit (a
non-429 `HTTPError`, or any other exception) occurs at invocation `j + 1`
(after `j` rate-limited invocations), `request` propagates that failure
directly, makes no further invocations (`j + 1` calls in total), and the
limiter state after the run equals its state before that attempt — the
failing attempt triggers neither `on_success` nor `on_rate_limit`. -/
theorem c5_fatal_propagates {α : Type} (f : ℕ → CallResult α)
    (s : AdaptiveRateLimiter) (j max_attempts : ℕ)
    (hj : j ≤ max_attempts)
    (h429 : ∀ i, i < j → f i = CallResult.httpError 429)
    (hfatal : AdaptiveRateLimiter.nonRateLimitFailure (f j)) :
    s.request f max_attempts =
      { outcome := directOutcome (f j),
        state := AdaptiveRateLimiter.on_rate_limit^[j] s,
        calls := j + 1, successes := 0, rateLimits := j } := by
  have hx := AdaptiveRateLimiter.requestAux_fatal_run f j 0 s max_attempts hj
    (by intro i hi; simpa using h429 i hi) (by simpa using hfatal)
  simpa [AdaptiveRateLimiter.request] using hx

/-- Witness for C5: a callable that raises a non-HTTP error on its first
invocation; `request` raises it at once, with the limiter untouched. -/
theorem c5_fatal_propagates_witness :
    (0 ≤ 5) ∧
    (∀ i, i < 0 →
      (fun _ : ℕ => (CallResult.otherError 3 : CallResult ℕ)) i =
        CallResult.httpError 429) ∧
    AdaptiveRateLimiter.nonRateLimitFailure
      ((fun _ : ℕ => (CallResult.otherError 3 : CallResult ℕ)) 0) ∧
    AdaptiveRateLimiter.initDefault.request
        (fun _ : ℕ => (CallResult.otherError 3 : CallResult ℕ)) 5 =
      { outcome := directOutcome (CallResult.otherError 3),
        state := AdaptiveRateLimiter.initDefault,
        calls := 1, successes := 0, rateLimits := 0 } :=
  ⟨by norm_num, fun i hi => absurd hi (by omega), trivial,
    c5_fatal_propagates _ AdaptiveRateLimiter.initDefault 0 5 (by norm_num)
      (fun i hi => absurd hi (by omega)) trivial⟩

/-- C2 counterexample: at the default configuration (`delay = 1`,
`update_count = 0`), a single `on_success` sets `delay` to `9/10`, while the
blend the claim describes (`alpha` computed from the pre-call
`update_count`, i.e. `alpha = 2`) would set it to `4/5`: the code increments
`update_count` before computing `alpha`, not after. -/
theorem c2_counterexample :
    (AdaptiveRateLimiter.initDefault.on_success).delay = 9/10 ∧
    claimedEmaDelay AdaptiveRateLimiter.initDefault
      (AdaptiveRateLimiter.initDefault.delay * (9/10)) = 4/5 ∧
    (AdaptiveRateLimiter.initDefault.on_success).delay ≠
      claimedEmaDelay AdaptiveRateLimiter.initDefault
        (AdaptiveRateLimiter.initDefault.delay * (9/10)) := by
  refine ⟨?_, ?_, ?_⟩ <;>
    norm_num [AdaptiveRateLimiter.initDefault, AdaptiveRateLimiter.init,
      AdaptiveRateLimiter.on_success, AdaptiveRateLimiter.apply_ema,
      AdaptiveRateLimiter.compute_alpha, claimedEmaDelay, pymin, pymax]

/-- C2 amended: `on_success` (resp. `on_rate_limit`) first increments
`update_count`, then blends the target `delay × 0.9` (resp. `delay × 2.0`)
into `delay` with weight `alpha = initial_alpha / (1 + update_count)` where
`update_count` is the value AFTER the increment, clamping the blend to
`[min_delay, max_delay]`; the other configuration fields are unchanged. -/
theorem c2_ema_update_rule (s : AdaptiveRateLimiter) :
    (s.on_success).update_count = s.update_count + 1 ∧
    (s.on_success).delay =
      claimedEmaDelay { s with update_count := s.update_count + 1 }
        (s.delay * (9/10)) ∧
    (s.on_success).min_delay = s.min_delay ∧
    (s.on_success).max_delay = s.max_delay ∧
    (s.on_success).initial_alpha = s.initial_alpha ∧
    (s.on_rate_limit).update_count = s.update_count + 1 ∧
    (s.on_rate_limit).delay =
      claimedEmaDelay { s with update_count := s.update_count + 1 }
        (s.delay * 2) ∧
    (s.on_rate_limit).min_delay = s.min_delay ∧
    (s.on_rate_limit).max_delay = s.max_delay ∧
    (s.on_rate_limit).initial_alpha = s.initial_alpha :=
  ⟨rfl, rfl, rfl, rfl, rfl, rfl, rfl, rfl, rfl, rfl⟩

theorem process_row_ok_shape (lookup : String → Except ℕ RowItem)
    (df df' : Df) (idx : ℕ) (h : process_row lookup df idx = .ok df') :
    ∃ row districts, df.rows[idx]? = some row ∧
      lookup row.address = .ok districts ∧
      df' = { df with rows := df.rows.set idx (applyItem row districts) } := by
  unfold process_row at h
  split at h
  · simp at h
  next row hrow =>
    split at h
    · simp at h
    next districts hl =>
      simp only [Except.ok.injEq] at h
      exact ⟨row, districts, hrow, hl, h.symm⟩

theorem process_row_frame (lookup : String → Except ℕ RowItem)
    (df df' : Df) (idx : ℕ) (h : process_row lookup df idx = .ok df')
    (i : ℕ) (hne : i ≠ idx) : df'.rows[i]? = df.rows[i]? := by
  obtain ⟨row, districts, hrow, hl, rfl⟩ := process_row_ok_shape lookup df df' idx h
  simp [List.getElem?_set_ne (Ne.symm hne)]

theorem runPending_frame (lookup : String → Except ℕ RowItem) (stop : ℕ → Bool) :
    ∀ (pending : List ℕ) (df : Df) (k i : ℕ),
      i ∉ (runPending lookup stop df pending k).2.2 →
      (runPending lookup stop df pending k).1.rows[i]? = df.rows[i]? := by
  intro pending
  induction pending with
  | nil => intro df k i _; simp [runPending]
  | cons idx rest ih =>
    intro df k i hi
    cases hstop : stop k with
    | true => simp [runPending, hstop]
    | false =>
      cases hpr : process_row lookup df idx with
      | error e => simp [runPending, hstop, hpr]
      | ok df' =>
        simp only [runPending, hstop, hpr, Bool.false_eq_true, if_false,
          List.mem_cons] at hi ⊢
        push_neg at hi
        exact (ih df' (k + 1) i hi.2).trans
          (process_row_frame lookup df df' idx hpr i hi.1)

theorem runPending_processed_sublist (lookup : String → Except ℕ RowItem)
    (stop : ℕ → Bool) :
    ∀ (pending : List ℕ) (df : Df) (k : ℕ),
      (runPending lookup stop df pending k).2.2 <+: pending := by
  intro pending
  induction pending with
  | nil => intro df k; simp [runPending]
  | cons idx rest ih =>
    intro df k
    cases hstop : stop k with
    | true => simp [runPending, hstop]
    | false =>
      cases hpr : process_row lookup df idx with
      | error e =>
        simp [runPending, hstop, hpr]
      | ok df' =>
        obtain ⟨t, ht⟩ := ih df' (k + 1)
        exact ⟨t, by simp only [runPending, hstop, hpr, Bool.false_eq_true,
          if_false, List.cons_append, ht]⟩

theorem runPending_completed (lookup : String → Except ℕ RowItem)
    (stop : ℕ → Bool) :
    ∀ (pending : List ℕ) (df : Df) (k : ℕ), pending.Pairwise (· ≠ ·) →
      ∀ i ∈ (runPending lookup stop df pending k).2.2,
        ∃ row districts, df.rows[i]? = some row ∧
          lookup row.address = .ok districts ∧
          (runPending lookup stop df pending k).1.rows[i]? =
            some (applyItem row districts) := by
  intro pending
  induction pending with
  | nil => intro df k _ i hi; simp [runPending] at hi
  | cons idx rest ih =>
    intro df k hpw i hi
    cases hstop : stop k with
    | true => rw [runPending, hstop] at hi; simp at hi
    | false =>
      cases hpr : process_row lookup df idx with
      | error e =>
        rw [runPending, hstop] at hi
        simp [hpr] at hi
      | ok df' =>
        have hpwrest := (List.pairwise_cons.mp hpw).2
        have hhead := (List.pairwise_cons.mp hpw).1
        have hsub := (runPending_processed_sublist lookup stop rest df' (k + 1)).subset
        simp only [runPending, hstop, hpr, Bool.false_eq_true, if_false,
          List.mem_cons] at hi ⊢
        rcases hi with rfl | hmem
        · obtain ⟨row, districts, hrow, hl, hdf'⟩ :=
            process_row_ok_shape lookup df df' i hpr
          refine ⟨row, districts, hrow, hl, ?_⟩
          have hnotin : i ∉ (runPending lookup stop df' rest (k + 1)).2.2 :=
            fun hin => hhead i (hsub hin) rfl
          rw [runPending_frame lookup stop rest df' (k + 1) i hnotin, hdf']
          have hlt : i < df.rows.length := (List.getElem?_eq_some.mp hrow).fst
          simpa using List.getElem?_set_eq_of_lt (applyItem row districts) hlt
        · have hne : idx ≠ i := hhead i (hsub hmem)
          obtain ⟨row, districts, hrow', hl, hfin⟩ :=
            ih df' (k + 1) hpwrest i hmem
          have hframe := process_row_frame lookup df df' idx hpr i (Ne.symm hne)
          exact ⟨row, districts, hframe.symm.trans hrow', hl, hfin⟩

theorem runPending_err_source (lookup : String → Except ℕ RowItem)
    (stop : ℕ → Bool) :
    ∀ (pending : List ℕ) (df : Df) (k : ℕ) (e : ℕ),
      (runPending lookup stop df pending k).2.1 = some e →
      ∃ dfx idx, process_row lookup dfx idx = .error e := by
  intro pending
  induction pending with
  | nil => intro df k e he; simp [runPending] at he
  | cons idx rest ih =>
    intro df k e he
    cases hstop : stop k with
    | true => rw [runPending, hstop] at he; simp at he
    | false =>
      cases hpr : process_row lookup df idx with
      | error e0 =>
        rw [runPending, hstop] at he
        simp only [hpr, Bool.false_eq_true, if_false, Option.some.injEq] at he
        exact ⟨df, idx, he ▸ hpr⟩
      | ok df' =>
        rw [runPending, hstop] at he
        simp only [hpr, Bool.false_eq_true, if_false] at he
        exact ih df' (k + 1) e he

theorem pendingIdxs_mem (df : Df) (i : ℕ) :
    i ∈ pendingIdxs df ↔
      ∃ row, df.rows[i]? = some row ∧ row.stateHouseRep = none := by
  unfold pendingIdxs
  rw [List.mem_filter, List.mem_range]
  constructor
  · rintro ⟨hlt, hp⟩
    cases hrow : df.rows[i]? with
    | none => rw [hrow] at hp; simp at hp
    | some row =>
      rw [hrow] at hp
      simp only [Option.isNone_iff_eq_none] at hp
      exact ⟨row, rfl, by simpa using hp⟩
  · rintro ⟨row, hrow, hnone⟩
    refine ⟨(List.getElem?_eq_some.mp hrow).fst, ?_⟩
    rw [hrow]
    simp [hnone]

theorem pendingIdxs_pairwise (df : Df) : (pendingIdxs df).Pairwise (· ≠ ·) :=
  ((List.pairwise_lt_range _).filter _).imp ne_of_lt

theorem addSentinelCol_hasCol (df : Df) :
    (addSentinelCol df).hasSentinelCol = true := by
  unfold addSentinelCol
  split
  next h => exact h
  next h => rfl

/-- C7: the batch driver adds the sentinel column `"State House Rep."` when
absent; its pending mask selects exactly the rows whose sentinel cell is
NA (empty/missing); the rows it processes form a prefix of the pending
indices in original order; and every row with a non-empty sentinel cell is
left untouched in the final table. -/
theorem c7_pending_selection (lookup : String → Except ℕ RowItem)
    (stop : ℕ → Bool) (df0 : Df) :
    (addSentinelCol df0).hasSentinelCol = true ∧
    (∀ i : ℕ, i ∈ pendingIdxs (addSentinelCol df0) ↔
      ∃ row, (addSentinelCol df0).rows[i]? = some row ∧
        row.stateHouseRep = none) ∧
    (process_csv lookup stop df0).processed <+:
      pendingIdxs (addSentinelCol df0) ∧
    (∀ (i : ℕ) (row : Row), (addSentinelCol df0).rows[i]? = some row →
      row.stateHouseRep ≠ none →
      (process_csv lookup stop df0).df.rows[i]? = some row) := by
  refine ⟨addSentinelCol_hasCol df0, fun i => pendingIdxs_mem _ i,
    runPending_processed_sublist lookup stop _ _ 0, ?_⟩
  intro i row hrow hne
  have hnotpend : i ∉ pendingIdxs (addSentinelCol df0) := by
    rw [pendingIdxs_mem]
    rintro ⟨row', hrow', hnone⟩
    rw [hrow] at hrow'
    injection hrow' with hrr
    exact hne (hrr ▸ hnone)
  have hnotproc :
      i ∉ (runPending lookup stop (addSentinelCol df0)
        (pendingIdxs (addSentinelCol df0)) 0).2.2 :=
    fun hin =>
      hnotpend ((runPending_processed_sublist lookup stop _ _ 0).subset hin)
  have hframe := runPending_frame lookup stop
    (pendingIdxs (addSentinelCol df0)) (addSentinelCol df0) 0 i hnotproc
  exact hframe.trans hrow

/-- Witness for C7 on a concrete table: the done row (index 0, non-empty
sentinel) of `sampleDf` is untouched by a run. -/
theorem c7_pending_selection_witness :
    ((addSentinelCol sampleDf).rows[0]? = some sampleRowDone) ∧
    (sampleRowDone.stateHouseRep ≠ none) ∧
    (process_csv sampleLookup neverStop sampleDf).df.rows[0]? =
      some sampleRowDone :=
  ⟨rfl, by simp [sampleRowDone],
    (c7_pending_selection sampleLookup neverStop sampleDf).2.2.2 0
      sampleRowDone rfl (by simp [sampleRowDone])⟩

/-- C8: in a run that propagates an exception, the table is written exactly
once, with the in-memory table as of the exception; the propagated error is
one that `process_row` raised; and for every row completed before the
failure the written table holds its updated cells. -/
theorem c8_flush_before_raise (lookup : String → Except ℕ RowItem)
    (stop : ℕ → Bool) (df0 : Df) (e : ℕ)
    (h : (process_csv lookup stop df0).err = some e) :
    (process_csv lookup stop df0).written = [(process_csv lookup stop df0).df] ∧
    (∃ dfx idx, process_row lookup dfx idx = .error e) ∧
    (∀ i ∈ (process_csv lookup stop df0).processed,
      ∃ row districts, (addSentinelCol df0).rows[i]? = some row ∧
        lookup row.address = .ok districts ∧
        (process_csv lookup stop df0).df.rows[i]? =
          some (applyItem row districts)) := by
  refine ⟨rfl, ?_, ?_⟩
  · exact runPending_err_source lookup stop
      (pendingIdxs (addSentinelCol df0)) (addSentinelCol df0) 0 e h
  · intro i hi
    exact runPending_completed lookup stop
      (pendingIdxs (addSentinelCol df0)) (addSentinelCol df0) 0
      (pendingIdxs_pairwise _) i hi

/-- Witness for C8: the sample run fails on the second pending row (error
tag 5) after completing the first; the theorem applies to it. -/
theorem c8_flush_before_raise_witness :
    ((process_csv sampleLookup neverStop sampleDf).err = some 5) ∧
    ((process_csv sampleLookup neverStop sampleDf).written =
      [(process_csv sampleLookup neverStop sampleDf).df] ∧
    (∃ dfx idx, process_row sampleLookup dfx idx = .error 5) ∧
    (∀ i ∈ (process_csv sampleLookup neverStop sampleDf).processed,
      ∃ row districts, (addSentinelCol sampleDf).rows[i]? = some row ∧
        sampleLookup row.address = .ok districts ∧
        (process_csv sampleLookup neverStop sampleDf).df.rows[i]? =
          some (applyItem row districts))) :=
  ⟨rfl, c8_flush_before_raise sampleLookup neverStop sampleDf 5 rfl⟩

/-- C10 counterexample: the scenario the claim asserts — an erroring run
whose persisted table shows a non-empty sentinel for a row that was pending
and was not completed — is impossible: `process_row` performs its cell
writes only after the lookup has returned, so a row that was not completed
is persisted exactly as it was. -/
theorem c10_counterexample : ¬ PartialRowPersisted := by
  rintro ⟨lookup, stop, df0, i, e, row, row', herr, hrow, hnone, hnotproc,
    hrow', hne⟩
  have hframe : (process_csv lookup stop df0).df.rows[i]? =
      (addSentinelCol df0).rows[i]? :=
    runPending_frame lookup stop (pendingIdxs (addSentinelCol df0))
      (addSentinelCol df0) 0 i hnotproc
  rw [hrow', hrow] at hframe
  injection hframe with hrr
  exact hne (hrr ▸ hnone)

/-- C10 amended: in a run that propagates an exception, every row NOT
completed by the run — including the row whose processing raised — is
persisted unchanged; in particular a pending row's sentinel cell is still
empty in the written table, so the next run classifies it as pending and
re-processes it. -/
theorem c10_failed_row_remains_pending (lookup : String → Except ℕ RowItem)
    (stop : ℕ → Bool) (df0 : Df) (e : ℕ)
    (h : (process_csv lookup stop df0).err = some e)
    (i : ℕ) (hi : i ∉ (process_csv lookup stop df0).processed) :
    (process_csv lookup stop df0).df.rows[i]? = (addSentinelCol df0).rows[i]? ∧
    (∀ row, (addSentinelCol df0).rows[i]? = some row →
      row.stateHouseRep = none →
      i ∈ pendingIdxs (process_csv lookup stop df0).df) := by
  have hframe : (process_csv lookup stop df0).df.rows[i]? =
      (addSentinelCol df0).rows[i]? :=
    runPending_frame lookup stop (pendingIdxs (addSentinelCol df0))
      (addSentinelCol df0) 0 i hi
  refine ⟨hframe, ?_⟩
  intro row hrow hnone
  rw [pendingIdxs_mem]
  exact ⟨row, hframe.trans hrow, hnone⟩

/-- Witness for the amended C10: in the sample run the failing row (index 2)
is not completed, is persisted unchanged, and is still pending in the
written table. -/
theorem c10_failed_row_remains_pending_witness :
    ((process_csv sampleLookup neverStop sampleDf).err = some 5) ∧
    (2 ∉ (process_csv sampleLookup neverStop sampleDf).processed) ∧
    ((process_csv sampleLookup neverStop sampleDf).df.rows[2]? =
      (addSentinelCol sampleDf).rows[2]? ∧
    (∀ row, (addSentinelCol sampleDf).rows[2]? = some row →
      row.stateHouseRep = none →
      2 ∈ pendingIdxs (process_csv sampleLookup neverStop sampleDf).df)) :=
  ⟨rfl, by decide,
    c10_failed_row_remains_pending sampleLookup neverStop sampleDf 5 rfl 2
      (by decide)⟩

/-- C9: district extraction is partial.  For a well-formed response whose
division id contains the state-house marker `"sldl"` but whose division
display name `"Pennsylvania"` contains no digit, `re.search(r'\d+', name)`
returns `None` and `.group(0)` on it raises (AttributeError), so
`get_legislative_districts` raises instead of leaving the cells blank; and
with a digit-bearing name but a first official whose `party` is absent,
`.get('party')[0]` dereferences `None` and raises (TypeError). -/
theorem c9_extraction_is_partial :
    strIn STATE_HOUSE_ID "ocd-division/country:us/state:pa/sldl:28" = true ∧
    firstDigitRun "Pennsylvania" = none ∧
    parseDistricts
      { divisions := [("ocd-division/country:us/state:pa/sldl:28",
          { name := "Pennsylvania", officeIndices := [0] })]
        offices := [{ officialIndices := [0] }]
        officials := [{ name := "Jane Doe", party := some "D" }] } =
      .error .attrError ∧
    parseDistricts
      { divisions := [("ocd-division/country:us/state:pa/sldl:28",
          { name := "Pennsylvania House District 28", officeIndices := [0] })]
        offices := [{ officialIndices := [0] }]
        officials := [{ name := "Jane Doe", party := none }] } =
      .error .typeError :=
  ⟨rfl, rfl, rfl, rfl⟩
